import Mathlib

/-!
Shallow embedding of `src/main.py` (a FastAPI wrapper around the
TotalSegmentator pipeline) and proofs of the frozen claims about it.

The program's own logic is session/path bookkeeping around three external
collaborators (the nibabel codec, the TotalSegmentator pipeline, and the
HTTP framework).  We embed the filesystem as an explicit state (a set of
directory paths and a set of file paths), and each external call as an
oracle supplied in an `Env` record: the oracle decides whether the call
succeeds (and with which value) or raises an exception (with which
message).  The handler bodies below mirror `src/main.py` line by line.
-/

namespace TotalSegAPI

/-- Result of one external (Python) call: either a returned value or a
raised exception carrying its message text. -/
inductive ExtResult (α : Type) where
  | ok : α → ExtResult α
  | exn : String → ExtResult α
deriving DecidableEq, Repr

/-- Opaque in-memory volumetric image handle (`nibabel` image object).
`typeName` models the Python runtime string `str(type(img))`. -/
structure ImageHandle where
  typeName : String
deriving DecidableEq, Repr

/-- Label map returned by `load_multilabel_nifti`: label id to anatomical
name (insertion order kept as a list, as the claims never depend on it). -/
abbrev LabelMap : Type := List (Nat × String)

/-- Filesystem state: the set of existing directory paths and the set of
existing file paths, each as a list of path strings. -/
structure FS where
  dirs : List String
  files : List String
deriving DecidableEq, Repr

/-- Embedding of `os.path.join(a, b)` (POSIX, both arguments relative-free
as in the source). -/
def pathJoin (a b : String) : String := a ++ "/" ++ b

/-- Embedding of `TEMP_DIR = os.path.join(tempfile.gettempdir(), "totalsegmentator_api")`
with the standard POSIX temp root. -/
def TEMP_DIR : String := pathJoin "/tmp" "totalsegmentator_api"

/-- Session directory `os.path.join(TEMP_DIR, session_id)` (main.py line 47). -/
def sessionDirOf (sid : String) : String := pathJoin TEMP_DIR sid

/-- Input path `os.path.join(session_dir, "input.nii.gz")` (main.py line 48). -/
def inputPathOf (sid : String) : String := pathJoin (sessionDirOf sid) "input.nii.gz"

/-- Output stem `os.path.join(session_dir, "segmented_image")` (main.py line 49). -/
def outputDirOf (sid : String) : String := pathJoin (sessionDirOf sid) "segmented_image"

/-- Path checked by the download endpoint:
`os.path.join(TEMP_DIR, session_id, "segmented_image.nii")` (main.py line 130). -/
def downloadPathOf (sid : String) : String :=
  pathJoin (sessionDirOf sid) "segmented_image.nii"

/-- True when path `p` lies strictly inside directory `d` (i.e. `d ++ "/"`
is a proper initial segment of `p`). -/
def underDir (d p : String) : Bool := List.isPrefixOf (d ++ "/").data p.data

/-- Embedding of `os.makedirs(p, exist_ok=True)`: record `p` as an existing
directory (idempotent). -/
def FS.mkdir (fs : FS) (p : String) : FS :=
  { fs with dirs := if p ∈ fs.dirs then fs.dirs else p :: fs.dirs }

/-- Embedding of creating/overwriting the file at `p` (idempotent on the
path set). -/
def FS.writeFile (fs : FS) (p : String) : FS :=
  { fs with files := if p ∈ fs.files then fs.files else p :: fs.files }

/-- Embedding of `os.path.exists(p)`: true when `p` exists as a directory
or as a file. -/
def FS.existsPath (fs : FS) (p : String) : Bool :=
  fs.dirs.contains p || fs.files.contains p

/-- Embedding of `shutil.rmtree(d)`: remove the tree rooted at `d` — the
entry at `d` itself and every entry strictly below it. -/
def FS.rmtree (fs : FS) (d : String) : FS :=
  { dirs := fs.dirs.filter (fun x => !(x == d || underDir d x)),
    files := fs.files.filter (fun x => !(x == d || underDir d x)) }

/-- Embedding of Python `str.upper()` restricted to the basic latin
letters actually exercised by the source (`"MR"`, `"CT"`, `"Mr"`, ...):
character-wise ASCII uppercasing. -/
def pyUpper (s : String) : String := String.mk (s.data.map Char.toUpper)

/-- Task selection from main.py lines 63-66:
`"total_mr"` when `image_type.upper() == "MR"`, else `"total"`. -/
def selectTask (image_type : String) : String :=
  if pyUpper image_type = "MR" then "total_mr" else "total"

/-- Oracle for the external calls a segment request makes.  Each field is
the outcome the external collaborator would produce at the corresponding
call site; the handler below consults them in program order. -/
structure Env where
  /-- Outcome of `os.makedirs(session_dir, exist_ok=True)`: `none` means
  success, `some m` means an exception with message `m`. -/
  mkdirFail : Option String
  /-- Outcome of saving the uploaded bytes (`open`/`file.read`/`write`):
  `none` means success, `some m` an exception with message `m`. -/
  writeFail : Option String
  /-- Outcome of `nib.load` on an existing file. -/
  nibLoad : ExtResult ImageHandle
  /-- Outcome of `totalsegmentator(input_img, fast=True, task=·)` as a
  function of the task identifier passed. -/
  segResult : String → ExtResult ImageHandle
  /-- Outcome of `os.makedirs(output_dir, exist_ok=True)`. -/
  mkOutFail : Option String
  /-- Outcome of `nib.save(output_img, output_dir)`: on success the codec
  creates the file `output_dir ++ ext` for the returned extension `ext`
  (the exact extension the codec appends is the open question of spec §9,
  so it is left to the oracle). -/
  saveResult : ExtResult String
  /-- Outcome of `load_multilabel_nifti` on an existing file. -/
  loadML : ExtResult (ImageHandle × LabelMap)

/-- Modelled from the spec: `load(path)` "fails with a decoding error if
the path is not a valid volumetric image container" (§4.2, nibabel is an
external collaborator not under src/); a nonexistent path is never a
valid container, so the load fails there regardless of the oracle. -/
def nibLoadSem (fs : FS) (p : String) (r : ExtResult ImageHandle) : ExtResult ImageHandle :=
  if fs.files.contains p then r else .exn ("No such file or directory: " ++ p)

/-- Modelled from the spec: `load_multilabel(path)` is "a specialized
load" (§4.2) subject to the same precondition — it fails when the path
does not exist as a file. -/
def loadMLSem (fs : FS) (p : String) (r : ExtResult (ImageHandle × LabelMap)) :
    ExtResult (ImageHandle × LabelMap) :=
  if fs.files.contains p then r else .exn ("No such file or directory: " ++ p)

/-- JSON body returned on the success path (main.py lines 78-84 and 114-120). -/
structure SuccessBody where
  status : String
  session_id : String
  download_url : String
  segmentation_type : String
  label_map : LabelMap
deriving DecidableEq

/-- HTTP outcome of a segment/example request: the success JSON, a raised
`HTTPException status_code detail`, or an exception that escaped the
handler (raised outside the `try` region, hence not turned into the
handler's own error response). -/
inductive Response where
  | success : SuccessBody → Response
  | httpError : Nat → String → Response
  | uncaught : String → Response
deriving DecidableEq

/-- Full observable outcome of one handler run: the response, the final
filesystem, the path passed to `nib.load` (if reached) and the task
identifier passed to `totalsegmentator` (if reached). -/
structure HandlerResult where
  resp : Response
  fs : FS
  loaded : Option String
  task : Option String
deriving DecidableEq

/-- Outcome of a `try` block body: the success value or the exception
message, together with the filesystem as modified up to that point and
the load/task trace. -/
structure TryOut where
  out : ExtResult SuccessBody
  fs : FS
  loaded : Option String
  task : Option String
deriving DecidableEq

/-- Body of the `try` region of `segment_image` (main.py lines 58-84):
load the input, select the task, run the pipeline, make the output dir,
save, re-load the saved result with its label map, and build the success
JSON. -/
def segTry (fs : FS) (session_id image_type : String) (env : Env) : TryOut :=
  let input_path := inputPathOf session_id
  let output_dir := outputDirOf session_id
  match nibLoadSem fs input_path env.nibLoad with
  | .exn e => ⟨.exn e, fs, some input_path, none⟩
  | .ok _input_img =>
    let task := selectTask image_type
    match env.segResult task with
    | .exn e => ⟨.exn e, fs, some input_path, some task⟩
    | .ok _output_img =>
      match env.mkOutFail with
      | some e => ⟨.exn e, fs, some input_path, some task⟩
      | none =>
        let fs := fs.mkdir output_dir
        match env.saveResult with
        | .exn e => ⟨.exn e, fs, some input_path, some task⟩
        | .ok ext =>
          let fs := fs.writeFile (output_dir ++ ext)
          match loadMLSem fs (output_dir ++ ".nii") env.loadML with
          | .exn e => ⟨.exn e, fs, some input_path, some task⟩
          | .ok (seg_img, label_map_dict) =>
            ⟨.ok { status := "success"
                 , session_id := session_id
                 , download_url := "/download/" ++ session_id ++ "/segmentation.nii"
                 , segmentation_type := seg_img.typeName
                 , label_map := label_map_dict }
            , fs, some input_path, some task⟩

/-- Embedding of the `POST /segment/` handler body (main.py lines 39-89):
session-directory creation and the upload write happen before the `try`
region (their exceptions escape); any exception inside the `try` region
triggers the `except` clause, which removes the session directory when it
exists and raises `HTTPException 500` with the exception text appended to
"Segmentation failed: ". -/
def segment_image (fs : FS) (session_id image_type : String) (env : Env) : HandlerResult :=
  let session_dir := sessionDirOf session_id
  match env.mkdirFail with
  | some m => ⟨.uncaught m, fs, none, none⟩
  | none =>
    let fs1 := fs.mkdir session_dir
    match env.writeFail with
    | some m => ⟨.uncaught m, fs1, none, none⟩
    | none =>
      let fs2 := fs1.writeFile (inputPathOf session_id)
      let t := segTry fs2 session_id image_type env
      match t.out with
      | .ok body => ⟨.success body, t.fs, t.loaded, t.task⟩
      | .exn e =>
        let fs3 := if t.fs.existsPath session_dir then t.fs.rmtree session_dir else t.fs
        ⟨.httpError 500 ("Segmentation failed: " ++ e), fs3, t.loaded, t.task⟩

/-- Endpoint-level view of `POST /segment/`: the `image_type` form field
is declared `Form("MR")` (main.py line 42), so an absent field defaults
to `"MR"` before the handler body runs. -/
def segment_endpoint (fs : FS) (session_id : String) (image_type : Option String)
    (env : Env) : HandlerResult :=
  segment_image fs session_id (image_type.getD "MR") env

/-- Fixed server-local example input of `GET /example/` (main.py line 96). -/
def examplePath : String := "./mri.nii.gz"

/-- Body of the `try` region of `segment_example` (main.py lines 105-120):
identical to `segTry` except that the input is loaded directly from the
fixed local file and the task is hard-coded to `"total_mr"`. -/
def exTry (fs : FS) (session_id : String) (env : Env) : TryOut :=
  let output_dir := outputDirOf session_id
  match nibLoadSem fs examplePath env.nibLoad with
  | .exn e => ⟨.exn e, fs, some examplePath, none⟩
  | .ok _input_img =>
    match env.segResult "total_mr" with
    | .exn e => ⟨.exn e, fs, some examplePath, some "total_mr"⟩
    | .ok _output_img =>
      match env.mkOutFail with
      | some e => ⟨.exn e, fs, some examplePath, some "total_mr"⟩
      | none =>
        let fs := fs.mkdir output_dir
        match env.saveResult with
        | .exn e => ⟨.exn e, fs, some examplePath, some "total_mr"⟩
        | .ok ext =>
          let fs := fs.writeFile (output_dir ++ ext)
          match loadMLSem fs (output_dir ++ ".nii") env.loadML with
          | .exn e => ⟨.exn e, fs, some examplePath, some "total_mr"⟩
          | .ok (seg_img, label_map_dict) =>
            ⟨.ok { status := "success"
                 , session_id := session_id
                 , download_url := "/download/" ++ session_id ++ "/segmentation.nii"
                 , segmentation_type := seg_img.typeName
                 , label_map := label_map_dict }
            , fs, some examplePath, some "total_mr"⟩

/-- Embedding of the `GET /example/` handler (main.py lines 91-125):
session-directory creation before the `try` region, then the example
body; the `except` clause is identical to the one of `segment_image`. -/
def segment_example (fs : FS) (session_id : String) (env : Env) : HandlerResult :=
  let session_dir := sessionDirOf session_id
  match env.mkdirFail with
  | some m => ⟨.uncaught m, fs, none, none⟩
  | none =>
    let fs1 := fs.mkdir session_dir
    let t := exTry fs1 session_id env
    match t.out with
    | .ok body => ⟨.success body, t.fs, t.loaded, t.task⟩
    | .exn e =>
      let fs3 := if t.fs.existsPath session_dir then t.fs.rmtree session_dir else t.fs
      ⟨.httpError 500 ("Segmentation failed: " ++ e), fs3, t.loaded, t.task⟩

/-- Outcome of a `GET /download/{session_id}/segmentation.nii` request:
a streamed file (with its on-disk path, media type and client-facing
filename) or a raised `HTTPException`. -/
inductive DownloadResp where
  | fileStream : String → String → String → DownloadResp
  | httpError : Nat → String → DownloadResp
deriving DecidableEq

/-- Embedding of the download handler (main.py lines 127-135): check
`os.path.exists` on `TEMP_DIR/{session_id}/segmented_image.nii`; 404 when
absent, otherwise stream that file as an octet-stream under the
client-facing name `segmentation.nii`. -/
def download_segmentation (fs : FS) (session_id : String) : DownloadResp :=
  let file_path := downloadPathOf session_id
  if fs.existsPath file_path then
    .fileStream file_path "application/octet-stream" "segmentation.nii"
  else
    .httpError 404 "Segmentation not found"

/-- An HTTP request to the download endpoint, carrying the identity of
the requesting client alongside the `session_id` path parameter.  The
handler's Python signature (main.py line 128) receives only the path
parameter, so the embedding ignores `requester`. -/
structure DownloadRequest where
  requester : String
  session_id : String

/-- Endpoint-level view of the download handler: the code reads nothing
from the request except the `session_id` path parameter. -/
def download_endpoint (fs : FS) (req : DownloadRequest) : DownloadResp :=
  download_segmentation fs req.session_id

/-- Embedding of the process-exit `cleanup()` (main.py lines 26-28):
remove the whole temp root tree when it exists. -/
def cleanup (fs : FS) : FS :=
  if fs.existsPath TEMP_DIR then fs.rmtree TEMP_DIR else fs

/-- Concrete oracle on which every external call succeeds and the codec
writes the `.nii` extension (used by witnesses). -/
def envOk : Env :=
  { mkdirFail := none
  , writeFail := none
  , nibLoad := .ok (ImageHandle.mk "Nifti1Image")
  , segResult := fun _ => .ok (ImageHandle.mk "Nifti1Image")
  , mkOutFail := none
  , saveResult := .ok ".nii"
  , loadML := .ok (ImageHandle.mk "Nifti1Image", [(1, "spleen")]) }

/-- Concrete oracle failing at the session-directory creation. -/
def envMkdirFail : Env := { envOk with mkdirFail := some "boom" }

/-- Concrete oracle failing while the uploaded bytes are being saved. -/
def envWriteFail : Env := { envOk with writeFail := some "boom" }

/-! ## Helper lemmas about characters, strings and the filesystem model -/

/-- Evaluation of `Char.ofNat` on a valid scalar value. -/
theorem toNat_ofNat_valid (m : Nat) (h : m.isValidChar) : (Char.ofNat m).toNat = m := by
  rw [Char.ofNat, dif_pos h]
  rfl

/-- Characterisation of ASCII uppercasing hitting a given basic latin
capital `u` with lowercase counterpart `l`. -/
theorem toUpper_eq_iff (c u l : Char) (hu : 65 ≤ u.toNat ∧ u.toNat ≤ 90)
    (hl : l.toNat = u.toNat + 32) :
    Char.toUpper c = u ↔ (c = u ∨ c = l) := by
  unfold Char.toUpper
  show (if c.toNat ≥ 97 ∧ c.toNat ≤ 122 then Char.ofNat (c.toNat - 32) else c) = u ↔ _
  split
  case isTrue hr =>
    constructor
    · intro h
      have h2 : (Char.ofNat (c.toNat - 32)).toNat = u.toNat := by rw [h]
      rw [toNat_ofNat_valid (c.toNat - 32) (Or.inl (by omega))] at h2
      right
      have hc : c.toNat = l.toNat := by omega
      calc c = Char.ofNat c.toNat := (Char.ofNat_toNat c).symm
        _ = Char.ofNat l.toNat := by rw [hc]
        _ = l := Char.ofNat_toNat l
    · intro h
      rcases h with h | h
      · exfalso
        have : c.toNat = u.toNat := by rw [h]
        omega
      · subst h
        have hc : c.toNat - 32 = u.toNat := by omega
        rw [hc]
        exact Char.ofNat_toNat u
  case isFalse hr =>
    constructor
    · intro h
      left
      exact h
    · intro h
      rcases h with h | h
      · exact h
      · exfalso
        have : c.toNat = l.toNat := by rw [h]
        omega

/-- Character lists whose ASCII uppercasing is `"MR"` are exactly the
four case variants of `"MR"`. -/
theorem map_toUpper_eq_MR (l : List Char) :
    l.map Char.toUpper = ['M', 'R'] ↔
      l = ['M', 'R'] ∨ l = ['M', 'r'] ∨ l = ['m', 'R'] ∨ l = ['m', 'r'] := by
  match l with
  | [] => simp
  | [a] => simp
  | [a, b] =>
    have hM := toUpper_eq_iff a 'M' 'm' (by decide) (by decide)
    have hR := toUpper_eq_iff b 'R' 'r' (by decide) (by decide)
    simp only [List.map_cons, List.map_nil, List.cons.injEq, and_true]
    rw [hM, hR]
    constructor
    · rintro ⟨hA | hA, hB | hB⟩ <;> subst hA <;> subst hB <;> simp
    · rintro (⟨hA, hB⟩ | ⟨hA, hB⟩ | ⟨hA, hB⟩ | ⟨hA, hB⟩) <;> subst hA <;> subst hB <;> simp
  | a :: b :: c :: t => simp

/-- Strings whose Python `upper()` is `"MR"` are exactly the four case
variants of `"MR"`. -/
theorem pyUpper_eq_MR (s : String) :
    pyUpper s = "MR" ↔ s = "MR" ∨ s = "Mr" ∨ s = "mR" ∨ s = "mr" := by
  obtain ⟨l⟩ := s
  show String.mk (l.map Char.toUpper) = String.mk ['M', 'R'] ↔ _
  constructor
  · intro h
    have h2 : l.map Char.toUpper = ['M', 'R'] := by
      injection h
    rcases (map_toUpper_eq_MR l).mp h2 with h3 | h3 | h3 | h3 <;> subst h3 <;> simp
  · intro h
    rcases h with h | h | h | h <;>
      (have h2 : l = _ := congrArg String.data h; subst h2; rfl)

/-- Appending on the left of `++` is injective for strings. -/
theorem string_append_right_inj (a b c : String) (h : a ++ b = a ++ c) : b = c := by
  apply String.ext
  have h2 : (a ++ b).data = (a ++ c).data := by rw [h]
  simp only [String.data_append] at h2
  exact List.append_inj_right h2 rfl

/-- Membership in the directory set after `mkdir`. -/
theorem mem_dirs_mkdir (fs : FS) (d p : String) :
    p ∈ (fs.mkdir d).dirs ↔ p = d ∨ p ∈ fs.dirs := by
  unfold FS.mkdir
  split
  case isTrue h =>
    constructor
    · exact fun hp => Or.inr hp
    · rintro (rfl | hp)
      · exact h
      · exact hp
  case isFalse h => simp [List.mem_cons]

/-- The `mkdir` operation leaves the file set unchanged. -/
theorem files_mkdir (fs : FS) (d : String) : (fs.mkdir d).files = fs.files := by
  unfold FS.mkdir
  split <;> rfl

/-- Membership in the file set after `writeFile`. -/
theorem mem_files_writeFile (fs : FS) (f p : String) :
    p ∈ (fs.writeFile f).files ↔ p = f ∨ p ∈ fs.files := by
  unfold FS.writeFile
  split
  case isTrue h =>
    constructor
    · exact fun hp => Or.inr hp
    · rintro (rfl | hp)
      · exact h
      · exact hp
  case isFalse h => simp [List.mem_cons]

/-- The `writeFile` operation leaves the directory set unchanged. -/
theorem dirs_writeFile (fs : FS) (f : String) : (fs.writeFile f).dirs = fs.dirs := by
  unfold FS.writeFile
  split <;> rfl

/-- Membership in the directory set after `rmtree`. -/
theorem mem_dirs_rmtree (fs : FS) (d p : String) :
    p ∈ (fs.rmtree d).dirs ↔ p ∈ fs.dirs ∧ p ≠ d ∧ underDir d p = false := by
  unfold FS.rmtree
  simp only [List.mem_filter, Bool.not_eq_eq_eq_not, Bool.not_true, Bool.or_eq_false_iff,
    beq_eq_false_iff_ne, ne_eq]

/-- Membership in the file set after `rmtree`. -/
theorem mem_files_rmtree (fs : FS) (d p : String) :
    p ∈ (fs.rmtree d).files ↔ p ∈ fs.files ∧ p ≠ d ∧ underDir d p = false := by
  unfold FS.rmtree
  simp only [List.mem_filter, Bool.not_eq_eq_eq_not, Bool.not_true, Bool.or_eq_false_iff,
    beq_eq_false_iff_ne, ne_eq]

/-- Characterisation of `existsPath` as plain membership. -/
theorem existsPath_iff (fs : FS) (p : String) :
    fs.existsPath p = true ↔ (p ∈ fs.dirs ∨ p ∈ fs.files) := by
  unfold FS.existsPath
  simp [List.contains]

/-- Removing a tree removes its root from the filesystem. -/
theorem existsPath_rmtree_self (fs : FS) (d : String) :
    (fs.rmtree d).existsPath d = false := by
  rw [← Bool.not_eq_true, existsPath_iff]
  rintro (h | h)
  · exact ((mem_dirs_rmtree fs d d).mp h).2.1 rfl
  · exact ((mem_files_rmtree fs d d).mp h).2.1 rfl

/-- Writing a file makes it present. -/
theorem contains_files_writeFile_self (fs : FS) (p : String) :
    (fs.writeFile p).files.contains p = true := by
  simp [List.contains, mem_files_writeFile]

/-- Unfolding lemma: when the session directory creation fails, the
exception escapes the handler untouched and the filesystem is unchanged. -/
theorem segment_image_eq_of_mkdir_fail (fs : FS) (sid it : String) (env : Env) (m : String)
    (h : env.mkdirFail = some m) :
    segment_image fs sid it env = ⟨.uncaught m, fs, none, none⟩ := by
  obtain ⟨mk, wf, nl, sr, mo, sv, lm⟩ := env
  simp only at h
  subst h
  rfl

/-- Unfolding lemma: when saving the upload fails, the exception escapes
the handler and the freshly created session directory persists. -/
theorem segment_image_eq_of_write_fail (fs : FS) (sid it : String) (env : Env) (m : String)
    (h1 : env.mkdirFail = none) (h2 : env.writeFail = some m) :
    segment_image fs sid it env = ⟨.uncaught m, fs.mkdir (sessionDirOf sid), none, none⟩ := by
  obtain ⟨mk, wf, nl, sr, mo, sv, lm⟩ := env
  simp only at h1 h2
  subst h1
  subst h2
  rfl

/-- Unfolding lemma: when both pre-`try` steps succeed, `segment_image`
is the `try` body followed by the `except` clause. -/
theorem segment_image_eq_of_pre_ok (fs : FS) (sid it : String) (env : Env)
    (h1 : env.mkdirFail = none) (h2 : env.writeFail = none) :
    segment_image fs sid it env =
      (let t := segTry ((fs.mkdir (sessionDirOf sid)).writeFile (inputPathOf sid)) sid it env
       match t.out with
       | .ok body => ⟨.success body, t.fs, t.loaded, t.task⟩
       | .exn e =>
         ⟨.httpError 500 ("Segmentation failed: " ++ e),
          if t.fs.existsPath (sessionDirOf sid) then t.fs.rmtree (sessionDirOf sid) else t.fs,
          t.loaded, t.task⟩) := by
  obtain ⟨mk, wf, nl, sr, mo, sv, lm⟩ := env
  simp only at h1 h2
  subst h1
  subst h2
  rfl

/-- Unfolding lemma for `segment_example` when directory creation fails. -/
theorem segment_example_eq_of_mkdir_fail (fs : FS) (sid : String) (env : Env) (m : String)
    (h : env.mkdirFail = some m) :
    segment_example fs sid env = ⟨.uncaught m, fs, none, none⟩ := by
  obtain ⟨mk, wf, nl, sr, mo, sv, lm⟩ := env
  simp only at h
  subst h
  rfl

/-- Unfolding lemma for `segment_example` when directory creation succeeds. -/
theorem segment_example_eq_of_pre_ok (fs : FS) (sid : String) (env : Env)
    (h : env.mkdirFail = none) :
    segment_example fs sid env =
      (let t := exTry (fs.mkdir (sessionDirOf sid)) sid env
       match t.out with
       | .ok body => ⟨.success body, t.fs, t.loaded, t.task⟩
       | .exn e =>
         ⟨.httpError 500 ("Segmentation failed: " ++ e),
          if t.fs.existsPath (sessionDirOf sid) then t.fs.rmtree (sessionDirOf sid) else t.fs,
          t.loaded, t.task⟩) := by
  obtain ⟨mk, wf, nl, sr, mo, sv, lm⟩ := env
  simp only at h
  subst h
  rfl

/-- Trace lemma: the task identifier the `try` body hands to the
pipeline is either absent (the flow failed at loading) or exactly
`selectTask image_type`. -/
theorem segTry_task (fs : FS) (sid it : String) (env : Env) :
    (segTry fs sid it env).task = none
    ∨ (segTry fs sid it env).task = some (selectTask it) := by
  simp only [segTry]
  cases h1 : nibLoadSem fs (inputPathOf sid) env.nibLoad with
  | exn e => simp
  | ok i =>
    cases h2 : env.segResult (selectTask it) with
    | exn e => simp
    | ok o =>
      cases h3 : env.mkOutFail with
      | some e => simp
      | none =>
        cases h4 : env.saveResult with
        | exn e => simp
        | ok ext =>
          cases h5 : loadMLSem ((fs.mkdir (outputDirOf sid)).writeFile (outputDirOf sid ++ ext))
              (outputDirOf sid ++ ".nii") env.loadML with
          | exn e => simp [h5]
          | ok r => simp [h5]

/-- Trace lemma: when the input file is present and `nib.load` succeeds,
the `try` body reaches the pipeline call with `selectTask image_type`. -/
theorem segTry_task_of_load_ok (fs : FS) (sid it : String) (env : Env)
    (img : ImageHandle) (h : env.nibLoad = .ok img)
    (hin : fs.files.contains (inputPathOf sid) = true) :
    (segTry fs sid it env).task = some (selectTask it) := by
  simp only [segTry, nibLoadSem, hin, if_true, h]
  cases h2 : env.segResult (selectTask it) with
  | exn e => simp
  | ok o =>
    cases h3 : env.mkOutFail with
    | some e => simp
    | none =>
      cases h4 : env.saveResult with
      | exn e => simp
      | ok ext =>
        cases h5 : loadMLSem ((fs.mkdir (outputDirOf sid)).writeFile (outputDirOf sid ++ ext))
            (outputDirOf sid ++ ".nii") env.loadML with
        | exn e => simp [h5]
        | ok r => simp [h5]

/-- Trace lemma: the task identifier `segment_image` hands to the
pipeline is either absent (the flow failed earlier) or exactly
`selectTask image_type`. -/
theorem segment_image_task (fs : FS) (sid it : String) (env : Env) :
    (segment_image fs sid it env).task = none
    ∨ (segment_image fs sid it env).task = some (selectTask it) := by
  cases hmk : env.mkdirFail with
  | some m =>
    rw [segment_image_eq_of_mkdir_fail fs sid it env m hmk]
    exact Or.inl rfl
  | none =>
    cases hwf : env.writeFail with
    | some m =>
      rw [segment_image_eq_of_write_fail fs sid it env m hmk hwf]
      exact Or.inl rfl
    | none =>
      rw [segment_image_eq_of_pre_ok fs sid it env hmk hwf]
      rcases segTry_task ((fs.mkdir (sessionDirOf sid)).writeFile (inputPathOf sid)) sid it env
        with h | h
      · cases hout : (segTry ((fs.mkdir (sessionDirOf sid)).writeFile (inputPathOf sid)) sid it env).out with
        | ok b =>
          left
          simp [hout, h]
        | exn e =>
          left
          simp [hout, h]
      · cases hout : (segTry ((fs.mkdir (sessionDirOf sid)).writeFile (inputPathOf sid)) sid it env).out with
        | ok b =>
          right
          simp [hout, h]
        | exn e =>
          right
          simp [hout, h]

/-- Trace lemma: when the pre-`try` steps succeed and `nib.load` returns
an image, `segment_image` reaches the pipeline call and passes it exactly
`selectTask image_type`. -/
theorem segment_image_task_of_load_ok (fs : FS) (sid it : String) (env : Env)
    (h1 : env.mkdirFail = none) (h2 : env.writeFail = none)
    (img : ImageHandle) (h3 : env.nibLoad = .ok img) :
    (segment_image fs sid it env).task = some (selectTask it) := by
  rw [segment_image_eq_of_pre_ok fs sid it env h1 h2]
  have ht := segTry_task_of_load_ok ((fs.mkdir (sessionDirOf sid)).writeFile (inputPathOf sid))
    sid it env img h3 (contains_files_writeFile_self _ _)
  cases hout : (segTry ((fs.mkdir (sessionDirOf sid)).writeFile (inputPathOf sid)) sid it env).out with
  | ok b => simp [hout, ht]
  | exn e => simp [hout, ht]

/-- Files surviving an `rmtree` are not under the removed root. -/
theorem files_rmtree_not_under (fs : FS) (d p : String) (h : p ∈ (fs.rmtree d).files) :
    underDir d p = false :=
  ((mem_files_rmtree fs d p).mp h).2.2

/-- Directories surviving an `rmtree` are not under the removed root. -/
theorem dirs_rmtree_not_under (fs : FS) (d p : String) (h : p ∈ (fs.rmtree d).dirs) :
    underDir d p = false :=
  ((mem_dirs_rmtree fs d p).mp h).2.2

/-- The `try` body of `segment_image` only adds filesystem entries. -/
theorem segTry_extends (fs : FS) (sid it : String) (env : Env) :
    (∀ p, p ∈ fs.dirs → p ∈ (segTry fs sid it env).fs.dirs)
    ∧ (∀ p, p ∈ fs.files → p ∈ (segTry fs sid it env).fs.files) := by
  simp only [segTry]
  cases h1 : nibLoadSem fs (inputPathOf sid) env.nibLoad with
  | exn e => exact ⟨fun p hp => hp, fun p hp => hp⟩
  | ok i =>
    cases h2 : env.segResult (selectTask it) with
    | exn e => exact ⟨fun p hp => hp, fun p hp => hp⟩
    | ok o =>
      cases h3 : env.mkOutFail with
      | some e => exact ⟨fun p hp => hp, fun p hp => hp⟩
      | none =>
        cases h4 : env.saveResult with
        | exn e =>
          refine ⟨fun p hp => ?_, fun p hp => ?_⟩
          · exact (mem_dirs_mkdir fs (outputDirOf sid) p).mpr (Or.inr hp)
          · rw [files_mkdir]
            exact hp
        | ok ext =>
          cases h5 : loadMLSem ((fs.mkdir (outputDirOf sid)).writeFile (outputDirOf sid ++ ext))
              (outputDirOf sid ++ ".nii") env.loadML with
          | exn e =>
            simp only [h5]
            refine ⟨fun p hp => ?_, fun p hp => ?_⟩
            · rw [dirs_writeFile]
              exact (mem_dirs_mkdir fs (outputDirOf sid) p).mpr (Or.inr hp)
            · rw [mem_files_writeFile, files_mkdir]
              exact Or.inr hp
          | ok r =>
            simp only [h5]
            refine ⟨fun p hp => ?_, fun p hp => ?_⟩
            · rw [dirs_writeFile]
              exact (mem_dirs_mkdir fs (outputDirOf sid) p).mpr (Or.inr hp)
            · rw [mem_files_writeFile, files_mkdir]
              exact Or.inr hp

/-- The `try` body of `segment_example` only adds filesystem entries. -/
theorem exTry_extends (fs : FS) (sid : String) (env : Env) :
    (∀ p, p ∈ fs.dirs → p ∈ (exTry fs sid env).fs.dirs)
    ∧ (∀ p, p ∈ fs.files → p ∈ (exTry fs sid env).fs.files) := by
  simp only [exTry]
  cases h1 : nibLoadSem fs examplePath env.nibLoad with
  | exn e => exact ⟨fun p hp => hp, fun p hp => hp⟩
  | ok i =>
    cases h2 : env.segResult "total_mr" with
    | exn e => exact ⟨fun p hp => hp, fun p hp => hp⟩
    | ok o =>
      cases h3 : env.mkOutFail with
      | some e => exact ⟨fun p hp => hp, fun p hp => hp⟩
      | none =>
        cases h4 : env.saveResult with
        | exn e =>
          refine ⟨fun p hp => ?_, fun p hp => ?_⟩
          · exact (mem_dirs_mkdir fs (outputDirOf sid) p).mpr (Or.inr hp)
          · rw [files_mkdir]
            exact hp
        | ok ext =>
          cases h5 : loadMLSem ((fs.mkdir (outputDirOf sid)).writeFile (outputDirOf sid ++ ext))
              (outputDirOf sid ++ ".nii") env.loadML with
          | exn e =>
            simp only [h5]
            refine ⟨fun p hp => ?_, fun p hp => ?_⟩
            · rw [dirs_writeFile]
              exact (mem_dirs_mkdir fs (outputDirOf sid) p).mpr (Or.inr hp)
            · rw [mem_files_writeFile, files_mkdir]
              exact Or.inr hp
          | ok r =>
            simp only [h5]
            refine ⟨fun p hp => ?_, fun p hp => ?_⟩
            · rw [dirs_writeFile]
              exact (mem_dirs_mkdir fs (outputDirOf sid) p).mpr (Or.inr hp)
            · rw [mem_files_writeFile, files_mkdir]
              exact Or.inr hp

/-- The session directory survives into the `try` body's filesystem. -/
theorem segTry_sessionDir_mem (fs : FS) (sid it : String) (env : Env) :
    sessionDirOf sid ∈ (segTry ((fs.mkdir (sessionDirOf sid)).writeFile (inputPathOf sid)) sid it env).fs.dirs := by
  apply (segTry_extends ((fs.mkdir (sessionDirOf sid)).writeFile (inputPathOf sid)) sid it env).1
  rw [dirs_writeFile]
  exact (mem_dirs_mkdir fs (sessionDirOf sid) (sessionDirOf sid)).mpr (Or.inl rfl)

/-- The session directory survives into the example `try` body's filesystem. -/
theorem exTry_sessionDir_mem (fs : FS) (sid : String) (env : Env) :
    sessionDirOf sid ∈ (exTry (fs.mkdir (sessionDirOf sid)) sid env).fs.dirs := by
  apply (exTry_extends (fs.mkdir (sessionDirOf sid)) sid env).1
  exact (mem_dirs_mkdir fs (sessionDirOf sid) (sessionDirOf sid)).mpr (Or.inl rfl)

/-- Path equation: the file the `try` body re-loads
(`output_dir + ".nii"`) is exactly the path the download endpoint checks. -/
theorem downloadPath_eq (sid : String) : outputDirOf sid ++ ".nii" = downloadPathOf sid := by
  apply String.ext
  simp only [outputDirOf, downloadPathOf, pathJoin, String.data_append, List.append_assoc]
  exact congrArg (fun l => (sessionDirOf sid).data ++ l) (by decide)

/-- Loading with the multilabel loader succeeds only on an existing file. -/
theorem loadMLSem_ok_mem (fs : FS) (p : String) (r0 : ExtResult (ImageHandle × LabelMap))
    (r : ImageHandle × LabelMap) (h : loadMLSem fs p r0 = .ok r) : p ∈ fs.files := by
  unfold loadMLSem at h
  by_cases hc : fs.files.contains p = true
  · simp only [List.contains] at hc
    simp only [List.elem_eq_mem, decide_eq_true_eq] at hc
    exact hc
  · rw [Bool.not_eq_true] at hc
    rw [hc] at h
    simp at h

/-- Specification of a successful `try` body: the success JSON is only
built after `load_multilabel_nifti` succeeded on the output file, so that
file is present in the body's final filesystem, and the body's
`download_url` has the canonical shape. -/
theorem segTry_ok_spec (fs : FS) (sid it : String) (env : Env) (b : SuccessBody)
    (h : (segTry fs sid it env).out = .ok b) :
    (outputDirOf sid ++ ".nii") ∈ (segTry fs sid it env).fs.files
    ∧ b.download_url = "/download/" ++ sid ++ "/segmentation.nii" := by
  simp only [segTry] at h ⊢
  cases h1 : nibLoadSem fs (inputPathOf sid) env.nibLoad with
  | exn e =>
    rw [h1] at h
    simp at h
  | ok i =>
    rw [h1] at h
    dsimp only at h
    cases h2 : env.segResult (selectTask it) with
    | exn e =>
      rw [h2] at h
      simp at h
    | ok o =>
      rw [h2] at h
      dsimp only at h
      cases h3 : env.mkOutFail with
      | some e =>
        rw [h3] at h
        simp at h
      | none =>
        rw [h3] at h
        dsimp only at h
        cases h4 : env.saveResult with
        | exn e =>
          rw [h4] at h
          simp at h
        | ok ext =>
          rw [h4] at h
          dsimp only at h
          cases h5 : loadMLSem ((fs.mkdir (outputDirOf sid)).writeFile (outputDirOf sid ++ ext))
              (outputDirOf sid ++ ".nii") env.loadML with
          | exn e =>
            rw [h5] at h
            simp at h
          | ok r =>
            obtain ⟨si, lmd⟩ := r
            rw [h5] at h
            simp only [h1, h2, h3, h4, h5]
            simp only [ExtResult.ok.injEq] at h
            constructor
            · exact loadMLSem_ok_mem _ _ _ _ h5
            · rw [← h]

/-- C4: whenever a POST /segment/ request returns the success JSON, the
output file the download URL refers to — the exact path the download
endpoint checks, `TEMP_DIR/{session_id}/segmented_image.nii` — exists in
the final filesystem, the download endpoint would stream it at that very
moment, and the body's `download_url` is
`/download/{session_id}/segmentation.nii`. -/
theorem claim_C4_success_implies_output_exists (fs : FS) (sid it : String) (env : Env)
    (b : SuccessBody) (h : (segment_image fs sid it env).resp = Response.success b) :
    (segment_image fs sid it env).fs.existsPath (downloadPathOf sid) = true
    ∧ download_segmentation (segment_image fs sid it env).fs sid
        = .fileStream (downloadPathOf sid) "application/octet-stream" "segmentation.nii"
    ∧ b.download_url = "/download/" ++ sid ++ "/segmentation.nii" := by
  cases hmk : env.mkdirFail with
  | some m =>
    rw [segment_image_eq_of_mkdir_fail fs sid it env m hmk] at h
    simp at h
  | none =>
    cases hwf : env.writeFail with
    | some m =>
      rw [segment_image_eq_of_write_fail fs sid it env m hmk hwf] at h
      simp at h
    | none =>
      rw [segment_image_eq_of_pre_ok fs sid it env hmk hwf] at h ⊢
      cases hout : (segTry ((fs.mkdir (sessionDirOf sid)).writeFile (inputPathOf sid)) sid it env).out with
      | exn e =>
        simp [hout] at h
      | ok b2 =>
        simp only [hout, Response.success.injEq] at h
        have hs := segTry_ok_spec ((fs.mkdir (sessionDirOf sid)).writeFile (inputPathOf sid))
          sid it env b2 hout
        have hmem : downloadPathOf sid
            ∈ (segTry ((fs.mkdir (sessionDirOf sid)).writeFile (inputPathOf sid)) sid it env).fs.files := by
          rw [← downloadPath_eq sid]
          exact hs.1
        have hep : (segTry ((fs.mkdir (sessionDirOf sid)).writeFile (inputPathOf sid)) sid it env).fs.existsPath
            (downloadPathOf sid) = true :=
          (existsPath_iff _ _).mpr (Or.inr hmem)
        refine ⟨by simp [hout, hep], ?_, ?_⟩
        · simp only [hout]
          unfold download_segmentation
          simp [hep]
        · rw [← h]
          exact hs.2

/-- C4 witness: a concrete all-successful request, its success response,
and the output file present for the download endpoint. -/
theorem claim_C4_witness :
    (segment_image (FS.mk [] []) "sid7" "CT" envOk).resp
      = Response.success (SuccessBody.mk "success" "sid7" "/download/sid7/segmentation.nii"
          "Nifti1Image" [(1, "spleen")])
    ∧ ((segment_image (FS.mk [] []) "sid7" "CT" envOk).fs.existsPath (downloadPathOf "sid7") = true
      ∧ download_segmentation (segment_image (FS.mk [] []) "sid7" "CT" envOk).fs "sid7"
          = .fileStream (downloadPathOf "sid7") "application/octet-stream" "segmentation.nii"
      ∧ (SuccessBody.mk "success" "sid7" "/download/sid7/segmentation.nii"
          "Nifti1Image" [(1, "spleen")]).download_url = "/download/" ++ "sid7" ++ "/segmentation.nii") :=
  ⟨by decide, claim_C4_success_implies_output_exists (FS.mk [] []) "sid7" "CT" envOk
    (SuccessBody.mk "success" "sid7" "/download/sid7/segmentation.nii" "Nifti1Image" [(1, "spleen")])
    (by decide)⟩

/-! ## Claim theorems -/

/-- C3: for every provided `image_type` string, task selection is total
and binary — the task is `"total_mr"` if and only if the string equals
`"MR"` case-insensitively (its four ASCII case variants `"MR"`, `"Mr"`,
`"mR"`, `"mr"`), and `"total"` for every other string. -/
theorem claim_C3_task_selection (s : String) :
    (selectTask s = "total_mr" ↔ (s = "MR" ∨ s = "Mr" ∨ s = "mR" ∨ s = "mr"))
    ∧ (selectTask s = "total_mr" ∨ selectTask s = "total")
    ∧ (¬(s = "MR" ∨ s = "Mr" ∨ s = "mR" ∨ s = "mr") → selectTask s = "total") := by
  have hiff := pyUpper_eq_MR s
  unfold selectTask
  split
  case isTrue h =>
    exact ⟨Iff.intro (fun _ => hiff.mp h) (fun _ => rfl), Or.inl rfl,
      fun hn => absurd (hiff.mp h) hn⟩
  case isFalse h =>
    refine ⟨Iff.intro (fun hx => absurd hx (by decide)) (fun hw => absurd (hiff.mpr hw) h),
      Or.inr rfl, fun _ => rfl⟩

/-- C5: a download request returns 404 (with no file stream) when the
checked file `TEMP_DIR/{session_id}/segmented_image.nii` is absent, and
otherwise streams exactly that file as an octet-stream under the
client-facing name `segmentation.nii`. -/
theorem claim_C5_download_behavior (fs : FS) (sid : String) :
    (fs.existsPath (downloadPathOf sid) = false →
      download_segmentation fs sid = .httpError 404 "Segmentation not found")
    ∧ (fs.existsPath (downloadPathOf sid) = true →
      download_segmentation fs sid =
        .fileStream (downloadPathOf sid) "application/octet-stream" "segmentation.nii") := by
  unfold download_segmentation
  constructor
  · intro h
    simp [h]
  · intro h
    simp [h]

/-- C5 witness: a session that was never created yields 404, and a
filesystem holding the output file yields the stream. -/
theorem claim_C5_witness :
    ((FS.mk [] []).existsPath (downloadPathOf "abc") = false
      ∧ download_segmentation (FS.mk [] []) "abc" = .httpError 404 "Segmentation not found")
    ∧ ((FS.mk [] [downloadPathOf "abc"]).existsPath (downloadPathOf "abc") = true
      ∧ download_segmentation (FS.mk [] [downloadPathOf "abc"]) "abc" =
          .fileStream (downloadPathOf "abc") "application/octet-stream" "segmentation.nii") :=
  ⟨⟨by decide, (claim_C5_download_behavior (FS.mk [] []) "abc").1 (by decide)⟩,
   ⟨by decide, (claim_C5_download_behavior (FS.mk [] [downloadPathOf "abc"]) "abc").2 (by decide)⟩⟩

/-- C8: the download endpoint's outcome is a function of the filesystem
state and the `session_id` path parameter only — two requests presenting
the same session token receive identical responses regardless of which
client sends them (no authorization check). -/
theorem claim_C8_download_requester_independent (fs : FS) (r1 r2 : DownloadRequest)
    (h : r1.session_id = r2.session_id) :
    download_endpoint fs r1 = download_endpoint fs r2 := by
  unfold download_endpoint
  rw [h]

/-- C8 witness: two different requesters presenting the same token get
the same response. -/
theorem claim_C8_witness :
    (DownloadRequest.mk "alice" "tok").session_id = (DownloadRequest.mk "mallory" "tok").session_id
    ∧ download_endpoint (FS.mk [] [downloadPathOf "tok"]) (DownloadRequest.mk "alice" "tok")
        = download_endpoint (FS.mk [] [downloadPathOf "tok"]) (DownloadRequest.mk "mallory" "tok") :=
  ⟨rfl, claim_C8_download_requester_independent (FS.mk [] [downloadPathOf "tok"])
      (DownloadRequest.mk "alice" "tok") (DownloadRequest.mk "mallory" "tok") rfl⟩

/-- C2 counterexample: at a concrete request with the `image_type` form
field absent and every external call succeeding, the task passed to the
segmentation call is the MR-specific `"total_mr"` (the `Form("MR")`
default applies), not the CT/default `"total"` the claim requires. -/
theorem claim_C2_counterexample :
    (segment_endpoint (FS.mk [] []) "sid0" none envOk).task = some "total_mr"
    ∧ (segment_endpoint (FS.mk [] []) "sid0" none envOk).task ≠ some "total" := by
  constructor
  · decide
  · decide

/-- C2 (amended): for every POST /segment/ request in which the
`image_type` field is absent, the declared form default `"MR"` applies,
so whenever the flow reaches the segmentation call the task identifier
passed to it is the MR-specific `"total_mr"` — never the CT/default
`"total"`. -/
theorem claim_C2_amended_absent_defaults_to_mr (fs : FS) (sid : String) (env : Env)
    (h1 : env.mkdirFail = none) (h2 : env.writeFail = none)
    (img : ImageHandle) (h3 : env.nibLoad = .ok img) :
    (segment_endpoint fs sid none env).task = some "total_mr"
    ∧ (segment_endpoint fs sid none env).task ≠ some "total" := by
  have ht : (segment_endpoint fs sid none env).task = some (selectTask "MR") :=
    segment_image_task_of_load_ok fs sid "MR" env h1 h2 img h3
  have hsel : selectTask "MR" = "total_mr" := by decide
  rw [ht, hsel]
  exact ⟨rfl, by decide⟩

/-- C2 witness: the amended claim at a concrete request. -/
theorem claim_C2_witness :
    envOk.mkdirFail = none ∧ envOk.writeFail = none
    ∧ envOk.nibLoad = .ok (ImageHandle.mk "Nifti1Image")
    ∧ ((segment_endpoint (FS.mk [] ["seed"]) "sid1" none envOk).task = some "total_mr"
        ∧ (segment_endpoint (FS.mk [] ["seed"]) "sid1" none envOk).task ≠ some "total") :=
  ⟨rfl, rfl, rfl, claim_C2_amended_absent_defaults_to_mr (FS.mk [] ["seed"]) "sid1" envOk
    rfl rfl (ImageHandle.mk "Nifti1Image") rfl⟩

/-- C10: session-directory creation and the upload write happen before
the `try` region of the POST /segment/ handler, so an exception in either
step escapes the handler unchanged: the cleanup-and-500 branch does not
run (the whole result equals the escaping-exception outcome, whose
response is `uncaught`, not the handler's `httpError`), and in the
upload-write case the freshly created session directory remains on disk. -/
theorem claim_C10_pre_try_exceptions_uncaught (fs : FS) (sid it : String) (env : Env)
    (m : String) :
    (env.mkdirFail = some m →
      segment_image fs sid it env = ⟨.uncaught m, fs, none, none⟩)
    ∧ (env.mkdirFail = none → env.writeFail = some m →
      segment_image fs sid it env = ⟨.uncaught m, fs.mkdir (sessionDirOf sid), none, none⟩
      ∧ (fs.mkdir (sessionDirOf sid)).existsPath (sessionDirOf sid) = true) := by
  constructor
  · intro h
    exact segment_image_eq_of_mkdir_fail fs sid it env m h
  · intro h1 h2
    refine ⟨segment_image_eq_of_write_fail fs sid it env m h1 h2, ?_⟩
    exact (existsPath_iff _ _).mpr
      (Or.inl ((mem_dirs_mkdir fs (sessionDirOf sid) (sessionDirOf sid)).mpr (Or.inl rfl)))

/-- C10 witness: both pre-`try` failure modes at concrete requests. -/
theorem claim_C10_witness :
    (envMkdirFail.mkdirFail = some "boom"
      ∧ segment_image (FS.mk [] []) "sid4" "CT" envMkdirFail
          = ⟨.uncaught "boom", FS.mk [] [], none, none⟩)
    ∧ (envWriteFail.mkdirFail = none ∧ envWriteFail.writeFail = some "boom"
      ∧ (segment_image (FS.mk [] []) "sid4" "CT" envWriteFail
          = ⟨.uncaught "boom", (FS.mk [] []).mkdir (sessionDirOf "sid4"), none, none⟩
        ∧ ((FS.mk [] []).mkdir (sessionDirOf "sid4")).existsPath (sessionDirOf "sid4") = true)) :=
  ⟨⟨rfl, (claim_C10_pre_try_exceptions_uncaught (FS.mk [] []) "sid4" "CT" envMkdirFail "boom").1 rfl⟩,
   ⟨rfl, rfl, (claim_C10_pre_try_exceptions_uncaught (FS.mk [] []) "sid4" "CT" envWriteFail "boom").2 rfl rfl⟩⟩

/-- C1 counterexample: a concrete POST /segment/ request whose upload
write raises leaves the session directory on disk and produces an
escaping exception, not the handler's 500 "Segmentation failed" response
with directory deletion — refuting the claim that an exception at any
stage (including upload saving) triggers the cleanup-and-500 branch. -/
theorem claim_C1_counterexample :
    (segment_image (FS.mk [] []) "sid5" "CT" envWriteFail).resp = .uncaught "boom"
    ∧ (segment_image (FS.mk [] []) "sid5" "CT" envWriteFail).fs.existsPath (sessionDirOf "sid5") = true := by
  constructor
  · decide
  · decide

/-- C1 (amended): once the guarded (`try`) region is entered — i.e. the
session-directory creation and the upload write succeeded — the request
either returns the success JSON, or the handler removes the whole session
tree (the directory itself and everything at or below it is absent from
the final filesystem) and raises exactly HTTP 500 with detail
"Segmentation failed: " followed by the caught exception's text; no other
outcome (in particular no partial result) exists.  Exceptions in the two
pre-`try` steps escape instead (see the counterexample and C10). -/
theorem claim_C1_amended_cleanup_on_try_failure (fs : FS) (sid it : String) (env : Env)
    (h1 : env.mkdirFail = none) (h2 : env.writeFail = none) :
    (∃ b, (segment_image fs sid it env).resp = Response.success b)
    ∨ (∃ e, (segment_image fs sid it env).resp
          = Response.httpError 500 ("Segmentation failed: " ++ e)
        ∧ (segment_image fs sid it env).fs.existsPath (sessionDirOf sid) = false
        ∧ (∀ p, p ∈ (segment_image fs sid it env).fs.files → underDir (sessionDirOf sid) p = false)
        ∧ (∀ p, p ∈ (segment_image fs sid it env).fs.dirs → underDir (sessionDirOf sid) p = false)) := by
  rw [segment_image_eq_of_pre_ok fs sid it env h1 h2]
  cases hout : (segTry ((fs.mkdir (sessionDirOf sid)).writeFile (inputPathOf sid)) sid it env).out with
  | ok b =>
    left
    exact ⟨b, by simp [hout]⟩
  | exn e =>
    right
    have hex : (segTry ((fs.mkdir (sessionDirOf sid)).writeFile (inputPathOf sid)) sid it env).fs.existsPath
        (sessionDirOf sid) = true :=
      (existsPath_iff _ _).mpr (Or.inl (segTry_sessionDir_mem fs sid it env))
    refine ⟨e, by simp [hout, hex], ?_, ?_, ?_⟩
    · simp only [hout, hex]
      simp [existsPath_rmtree_self]
    · simp only [hout, hex]
      intro p hp
      simp only [if_true] at hp
      exact files_rmtree_not_under _ _ _ hp
    · simp only [hout, hex]
      intro p hp
      simp only [if_true] at hp
      exact dirs_rmtree_not_under _ _ _ hp

/-- C1 witness: the amended claim at a concrete request whose pipeline
call raises. -/
theorem claim_C1_witness :
    ({ envOk with segResult := fun _ => ExtResult.exn "model error" } : Env).mkdirFail = none
    ∧ ({ envOk with segResult := fun _ => ExtResult.exn "model error" } : Env).writeFail = none
    ∧ ((∃ b, (segment_image (FS.mk [] []) "sid6" "CT"
          { envOk with segResult := fun _ => ExtResult.exn "model error" }).resp
            = Response.success b)
      ∨ (∃ e, (segment_image (FS.mk [] []) "sid6" "CT"
            { envOk with segResult := fun _ => ExtResult.exn "model error" }).resp
              = Response.httpError 500 ("Segmentation failed: " ++ e)
          ∧ (segment_image (FS.mk [] []) "sid6" "CT"
              { envOk with segResult := fun _ => ExtResult.exn "model error" }).fs.existsPath
                (sessionDirOf "sid6") = false
          ∧ (∀ p, p ∈ (segment_image (FS.mk [] []) "sid6" "CT"
              { envOk with segResult := fun _ => ExtResult.exn "model error" }).fs.files
                → underDir (sessionDirOf "sid6") p = false)
          ∧ (∀ p, p ∈ (segment_image (FS.mk [] []) "sid6" "CT"
              { envOk with segResult := fun _ => ExtResult.exn "model error" }).fs.dirs
                → underDir (sessionDirOf "sid6") p = false))) :=
  ⟨rfl, rfl, claim_C1_amended_cleanup_on_try_failure (FS.mk [] []) "sid6" "CT"
    { envOk with segResult := fun _ => ExtResult.exn "model error" } rfl rfl⟩

/-- Every session directory lies inside the temp root. -/
theorem underDir_TEMP_sessionDir (sid : String) : underDir TEMP_DIR (sessionDirOf sid) = true := by
  unfold underDir sessionDirOf pathJoin
  simp only [String.data_append, List.isPrefixOf_iff_prefix, List.append_assoc]
  exact List.prefix_append _ _

/-- Process-exit cleanup removes every session directory along with the
temp root. -/
theorem cleanup_clears_session (fs : FS) (sid : String)
    (h : fs.existsPath TEMP_DIR = true) :
    (cleanup fs).existsPath (sessionDirOf sid) = false := by
  unfold cleanup
  rw [h]
  simp only [if_true]
  rw [← Bool.not_eq_true, existsPath_iff]
  rintro (hd | hf)
  · have hu := ((mem_dirs_rmtree fs TEMP_DIR (sessionDirOf sid)).mp hd).2.2
    rw [underDir_TEMP_sessionDir] at hu
    simp at hu
  · have hu := ((mem_files_rmtree fs TEMP_DIR (sessionDirOf sid)).mp hf).2.2
    rw [underDir_TEMP_sessionDir] at hu
    simp at hu

/-- Pre-existing directories survive the pre-`try` setup steps. -/
theorem mem_dirs_setup (fs : FS) (sid p : String) (hp : p ∈ fs.dirs) :
    p ∈ ((fs.mkdir (sessionDirOf sid)).writeFile (inputPathOf sid)).dirs := by
  rw [dirs_writeFile]
  exact (mem_dirs_mkdir fs (sessionDirOf sid) p).mpr (Or.inr hp)

/-- Pre-existing files survive the pre-`try` setup steps. -/
theorem mem_files_setup (fs : FS) (sid p : String) (hp : p ∈ fs.files) :
    p ∈ ((fs.mkdir (sessionDirOf sid)).writeFile (inputPathOf sid)).files := by
  rw [mem_files_writeFile]
  right
  rw [files_mkdir]
  exact hp

/-- C7: on the success path of a segment or example request the handler
removes nothing — the session directory is present in the final
filesystem and every pre-existing directory and file survives (no
per-session cleanup on success); the session directory disappears only
through the process-exit `cleanup`, which removes the whole temp root
tree. -/
theorem claim_C7_no_cleanup_on_success (fs : FS) (sid it : String) (env : Env)
    (b b2 : SuccessBody) :
    ((segment_image fs sid it env).resp = Response.success b →
        sessionDirOf sid ∈ (segment_image fs sid it env).fs.dirs
      ∧ (∀ p, p ∈ fs.dirs → p ∈ (segment_image fs sid it env).fs.dirs)
      ∧ (∀ p, p ∈ fs.files → p ∈ (segment_image fs sid it env).fs.files))
    ∧ ((segment_example fs sid env).resp = Response.success b2 →
        sessionDirOf sid ∈ (segment_example fs sid env).fs.dirs
      ∧ (∀ p, p ∈ fs.dirs → p ∈ (segment_example fs sid env).fs.dirs)
      ∧ (∀ p, p ∈ fs.files → p ∈ (segment_example fs sid env).fs.files))
    ∧ (fs.existsPath TEMP_DIR = true →
        (cleanup fs).existsPath (sessionDirOf sid) = false) := by
  refine ⟨?_, ?_, cleanup_clears_session fs sid⟩
  · intro h
    cases hmk : env.mkdirFail with
    | some m =>
      rw [segment_image_eq_of_mkdir_fail fs sid it env m hmk] at h
      simp at h
    | none =>
      cases hwf : env.writeFail with
      | some m =>
        rw [segment_image_eq_of_write_fail fs sid it env m hmk hwf] at h
        simp at h
      | none =>
        rw [segment_image_eq_of_pre_ok fs sid it env hmk hwf] at h ⊢
        cases hout : (segTry ((fs.mkdir (sessionDirOf sid)).writeFile (inputPathOf sid)) sid it env).out with
        | exn e => simp [hout] at h
        | ok b3 =>
          refine ⟨?_, ?_, ?_⟩
          · simp only [hout]
            exact segTry_sessionDir_mem fs sid it env
          · intro p hp
            simp only [hout]
            exact (segTry_extends _ sid it env).1 p (mem_dirs_setup fs sid p hp)
          · intro p hp
            simp only [hout]
            exact (segTry_extends _ sid it env).2 p (mem_files_setup fs sid p hp)
  · intro h
    cases hmk : env.mkdirFail with
    | some m =>
      rw [segment_example_eq_of_mkdir_fail fs sid env m hmk] at h
      simp at h
    | none =>
      rw [segment_example_eq_of_pre_ok fs sid env hmk] at h ⊢
      cases hout : (exTry (fs.mkdir (sessionDirOf sid)) sid env).out with
      | exn e => simp [hout] at h
      | ok b3 =>
        refine ⟨?_, ?_, ?_⟩
        · simp only [hout]
          exact exTry_sessionDir_mem fs sid env
        · intro p hp
          simp only [hout]
          exact (exTry_extends _ sid env).1 p ((mem_dirs_mkdir fs (sessionDirOf sid) p).mpr (Or.inr hp))
        · intro p hp
          simp only [hout]
          exact (exTry_extends _ sid env).2 p (by rw [files_mkdir]; exact hp)

/-- C7 witness: a concrete all-successful run of both handlers on a
filesystem holding the temp root and the example input. -/
theorem claim_C7_witness :
    ((segment_image (FS.mk [TEMP_DIR] [examplePath]) "sid8" "MR" envOk).resp
        = Response.success (SuccessBody.mk "success" "sid8" "/download/sid8/segmentation.nii"
            "Nifti1Image" [(1, "spleen")])
      ∧ (sessionDirOf "sid8" ∈ (segment_image (FS.mk [TEMP_DIR] [examplePath]) "sid8" "MR" envOk).fs.dirs
        ∧ (∀ p, p ∈ (FS.mk [TEMP_DIR] [examplePath]).dirs
            → p ∈ (segment_image (FS.mk [TEMP_DIR] [examplePath]) "sid8" "MR" envOk).fs.dirs)
        ∧ (∀ p, p ∈ (FS.mk [TEMP_DIR] [examplePath]).files
            → p ∈ (segment_image (FS.mk [TEMP_DIR] [examplePath]) "sid8" "MR" envOk).fs.files)))
    ∧ ((segment_example (FS.mk [TEMP_DIR] [examplePath]) "sid8" envOk).resp
        = Response.success (SuccessBody.mk "success" "sid8" "/download/sid8/segmentation.nii"
            "Nifti1Image" [(1, "spleen")])
      ∧ (sessionDirOf "sid8" ∈ (segment_example (FS.mk [TEMP_DIR] [examplePath]) "sid8" envOk).fs.dirs
        ∧ (∀ p, p ∈ (FS.mk [TEMP_DIR] [examplePath]).dirs
            → p ∈ (segment_example (FS.mk [TEMP_DIR] [examplePath]) "sid8" envOk).fs.dirs)
        ∧ (∀ p, p ∈ (FS.mk [TEMP_DIR] [examplePath]).files
            → p ∈ (segment_example (FS.mk [TEMP_DIR] [examplePath]) "sid8" envOk).fs.files)))
    ∧ ((FS.mk [TEMP_DIR] [examplePath]).existsPath TEMP_DIR = true
      ∧ (cleanup (FS.mk [TEMP_DIR] [examplePath])).existsPath (sessionDirOf "sid8") = false) :=
  ⟨⟨by decide,
    (claim_C7_no_cleanup_on_success (FS.mk [TEMP_DIR] [examplePath]) "sid8" "MR" envOk
      (SuccessBody.mk "success" "sid8" "/download/sid8/segmentation.nii" "Nifti1Image" [(1, "spleen")])
      (SuccessBody.mk "success" "sid8" "/download/sid8/segmentation.nii" "Nifti1Image" [(1, "spleen")])).1
      (by decide)⟩,
   ⟨by decide,
    (claim_C7_no_cleanup_on_success (FS.mk [TEMP_DIR] [examplePath]) "sid8" "MR" envOk
      (SuccessBody.mk "success" "sid8" "/download/sid8/segmentation.nii" "Nifti1Image" [(1, "spleen")])
      (SuccessBody.mk "success" "sid8" "/download/sid8/segmentation.nii" "Nifti1Image" [(1, "spleen")])).2.1
      (by decide)⟩,
   ⟨by decide,
    (claim_C7_no_cleanup_on_success (FS.mk [TEMP_DIR] [examplePath]) "sid8" "MR" envOk
      (SuccessBody.mk "success" "sid8" "/download/sid8/segmentation.nii" "Nifti1Image" [(1, "spleen")])
      (SuccessBody.mk "success" "sid8" "/download/sid8/segmentation.nii" "Nifti1Image" [(1, "spleen")])).2.2
      (by decide)⟩⟩

/-- Session directories are uniquely determined by the session token. -/
theorem sessionDirOf_inj (sid1 sid2 : String)
    (h : sessionDirOf sid1 = sessionDirOf sid2) : sid1 = sid2 := by
  unfold sessionDirOf pathJoin at h
  exact string_append_right_inj (TEMP_DIR ++ "/") sid1 sid2 h

/-- C9: assuming the random token generator yields fresh tokens (distinct
36-character `str(uuid.uuid4())` strings), distinct invocations receive
distinct session directories, and those directories are disjoint: no path
lies under both. -/
theorem claim_C9_distinct_sessions_disjoint (sid1 sid2 : String)
    (hne : sid1 ≠ sid2) (h1 : sid1.length = 36) (h2 : sid2.length = 36) :
    sessionDirOf sid1 ≠ sessionDirOf sid2
    ∧ ∀ p, underDir (sessionDirOf sid1) p = true → underDir (sessionDirOf sid2) p = false := by
  constructor
  · intro h
    exact hne (sessionDirOf_inj sid1 sid2 h)
  · intro p hp1
    by_contra hq
    rw [Bool.not_eq_false] at hq
    unfold underDir at hp1 hq
    rw [List.isPrefixOf_iff_prefix] at hp1 hq
    have e1 : sid1.data.length = 36 := h1
    have e2 : sid2.data.length = 36 := h2
    have hl : ((sessionDirOf sid1 ++ "/").data).length = ((sessionDirOf sid2 ++ "/").data).length := by
      simp [sessionDirOf, pathJoin, String.data_append, e1, e2]
    rw [List.prefix_iff_eq_take] at hp1 hq
    rw [hl] at hp1
    have p1 : (sessionDirOf sid1 ++ "/").data = (sessionDirOf sid2 ++ "/").data :=
      hp1.trans hq.symm
    have h3 : (sessionDirOf sid1).data ++ ("/" : String).data
        = (sessionDirOf sid2).data ++ ("/" : String).data := by
      simpa [String.data_append] using p1
    have hd : sessionDirOf sid1 = sessionDirOf sid2 :=
      String.ext (List.append_inj' h3 rfl).1
    exact hne (sessionDirOf_inj sid1 sid2 hd)

/-- C9 witness: two concrete distinct 36-character tokens, their distinct
session directories, and a path under the first that is not under the
second. -/
theorem claim_C9_witness :
    ("aaaaaaaaaaaaaaaaaaaaaaaaaaaaaaaaaaaa" : String) ≠ "bbbbbbbbbbbbbbbbbbbbbbbbbbbbbbbbbbbb"
    ∧ ("aaaaaaaaaaaaaaaaaaaaaaaaaaaaaaaaaaaa" : String).length = 36
    ∧ ("bbbbbbbbbbbbbbbbbbbbbbbbbbbbbbbbbbbb" : String).length = 36
    ∧ sessionDirOf "aaaaaaaaaaaaaaaaaaaaaaaaaaaaaaaaaaaa"
        ≠ sessionDirOf "bbbbbbbbbbbbbbbbbbbbbbbbbbbbbbbbbbbb"
    ∧ underDir (sessionDirOf "aaaaaaaaaaaaaaaaaaaaaaaaaaaaaaaaaaaa")
        (inputPathOf "aaaaaaaaaaaaaaaaaaaaaaaaaaaaaaaaaaaa") = true
    ∧ underDir (sessionDirOf "bbbbbbbbbbbbbbbbbbbbbbbbbbbbbbbbbbbb")
        (inputPathOf "aaaaaaaaaaaaaaaaaaaaaaaaaaaaaaaaaaaa") = false :=
  ⟨by decide, by decide, by decide,
   (claim_C9_distinct_sessions_disjoint "aaaaaaaaaaaaaaaaaaaaaaaaaaaaaaaaaaaa"
      "bbbbbbbbbbbbbbbbbbbbbbbbbbbbbbbbbbbb" (by decide) (by decide) (by decide)).1,
   by decide,
   (claim_C9_distinct_sessions_disjoint "aaaaaaaaaaaaaaaaaaaaaaaaaaaaaaaaaaaa"
      "bbbbbbbbbbbbbbbbbbbbbbbbbbbbbbbbbbbb" (by decide) (by decide) (by decide)).2
      (inputPathOf "aaaaaaaaaaaaaaaaaaaaaaaaaaaaaaaaaaaa") (by decide)⟩

/-- Membership makes `contains` true. -/
theorem contains_of_mem (l : List String) (p : String) (h : p ∈ l) : l.contains p = true := by
  simp [List.contains, h]

/-- Lists agreeing on membership of `q` have equal `contains q`. -/
theorem contains_congr (la lb : List String) (q : String) (h : q ∈ la ↔ q ∈ lb) :
    la.contains q = lb.contains q := by
  simp only [List.contains, List.elem_eq_mem]
  exact decide_eq_decide.mpr h

/-- Creating the same directory over equal directory sets yields equal
directory sets. -/
theorem mkdir_dirs_congr (fsa fsb : FS) (d : String) (h : fsa.dirs = fsb.dirs) :
    (fsa.mkdir d).dirs = (fsb.mkdir d).dirs := by
  unfold FS.mkdir
  rw [h]

/-- The output file the `try` body re-loads is never the uploaded input
copy: the two paths have different lengths. -/
theorem outputNii_ne_inputPath (sid : String) : outputDirOf sid ++ ".nii" ≠ inputPathOf sid := by
  intro h
  have hle := congrArg String.length h
  have l1 : ("/" : String).length = 1 := rfl
  have l2 : ("segmented_image" : String).length = 15 := rfl
  have l3 : (".nii" : String).length = 4 := rfl
  have l4 : ("input.nii.gz" : String).length = 12 := rfl
  simp only [outputDirOf, inputPathOf, pathJoin, String.length_append, l1, l2, l3, l4] at hle
  omega

/-- Simulation between the example `try` body and the segment `try` body
run with the default modality `"MR"`: over filesystems that agree on
directories and on all files except the uploaded input copy — with the
fixed example file present on the example side and the input copy present
on the segment side — the two bodies produce the same outcome, pass the
same task to the pipeline, and leave filesystems agreeing on directories
and on all files except the input copy. -/
theorem exTry_segTry_sim (fsa fsb : FS) (sid : String) (env : Env)
    (hd : fsa.dirs = fsb.dirs)
    (hf : ∀ p, p ≠ inputPathOf sid → (p ∈ fsa.files ↔ p ∈ fsb.files))
    (hex : examplePath ∈ fsa.files)
    (hip : inputPathOf sid ∈ fsb.files) :
    (exTry fsa sid env).out = (segTry fsb sid "MR" env).out
    ∧ (exTry fsa sid env).task = (segTry fsb sid "MR" env).task
    ∧ (exTry fsa sid env).fs.dirs = (segTry fsb sid "MR" env).fs.dirs
    ∧ ∀ p, p ≠ inputPathOf sid →
        (p ∈ (exTry fsa sid env).fs.files ↔ p ∈ (segTry fsb sid "MR" env).fs.files) := by
  have ha : nibLoadSem fsa examplePath env.nibLoad = env.nibLoad := by
    unfold nibLoadSem
    rw [contains_of_mem fsa.files examplePath hex]
    simp
  have hb : nibLoadSem fsb (inputPathOf sid) env.nibLoad = env.nibLoad := by
    unfold nibLoadSem
    rw [contains_of_mem fsb.files (inputPathOf sid) hip]
    simp
  have hsel : selectTask "MR" = "total_mr" := by decide
  simp only [exTry, segTry, ha, hb, hsel]
  cases hnl : env.nibLoad with
  | exn e => exact ⟨rfl, rfl, hd, hf⟩
  | ok i =>
    cases hsr : env.segResult "total_mr" with
    | exn e => exact ⟨rfl, rfl, hd, hf⟩
    | ok o =>
      cases hmo : env.mkOutFail with
      | some e => exact ⟨rfl, rfl, hd, hf⟩
      | none =>
        have hd1 : (fsa.mkdir (outputDirOf sid)).dirs = (fsb.mkdir (outputDirOf sid)).dirs :=
          mkdir_dirs_congr fsa fsb (outputDirOf sid) hd
        have hf1 : ∀ p, p ≠ inputPathOf sid →
            (p ∈ (fsa.mkdir (outputDirOf sid)).files ↔ p ∈ (fsb.mkdir (outputDirOf sid)).files) := by
          intro p hp
          rw [files_mkdir, files_mkdir]
          exact hf p hp
        cases hsv : env.saveResult with
        | exn e => exact ⟨rfl, rfl, hd1, hf1⟩
        | ok ext =>
          have hd2 : ((fsa.mkdir (outputDirOf sid)).writeFile (outputDirOf sid ++ ext)).dirs
              = ((fsb.mkdir (outputDirOf sid)).writeFile (outputDirOf sid ++ ext)).dirs := by
            rw [dirs_writeFile, dirs_writeFile]
            exact hd1
          have hf2 : ∀ p, p ≠ inputPathOf sid →
              (p ∈ ((fsa.mkdir (outputDirOf sid)).writeFile (outputDirOf sid ++ ext)).files
                ↔ p ∈ ((fsb.mkdir (outputDirOf sid)).writeFile (outputDirOf sid ++ ext)).files) := by
            intro p hp
            rw [mem_files_writeFile, mem_files_writeFile]
            exact or_congr Iff.rfl (hf1 p hp)
          have hguard : ((fsa.mkdir (outputDirOf sid)).writeFile (outputDirOf sid ++ ext)).files.contains
                (outputDirOf sid ++ ".nii")
              = ((fsb.mkdir (outputDirOf sid)).writeFile (outputDirOf sid ++ ext)).files.contains
                (outputDirOf sid ++ ".nii") :=
            contains_congr _ _ _ (hf2 (outputDirOf sid ++ ".nii") (outputNii_ne_inputPath sid))
          simp only [loadMLSem, hguard]
          cases hcb : ((fsb.mkdir (outputDirOf sid)).writeFile (outputDirOf sid ++ ext)).files.contains
              (outputDirOf sid ++ ".nii") with
          | false =>
            simp only [Bool.false_eq_true, if_false]
            exact ⟨by trivial, by trivial, hd2, hf2⟩
          | true =>
            simp only [if_true]
            cases hml : env.loadML with
            | exn e => exact ⟨rfl, rfl, hd2, hf2⟩
            | ok r =>
              obtain ⟨si, lmd⟩ := r
              exact ⟨rfl, rfl, hd2, hf2⟩

/-- C6: `GET /example/` runs the same flow as `POST /segment/` — same
session creation, same segmentation call (the example's hard-coded
`"total_mr"` equals the task selected for the declared default
`image_type = "MR"`), same save and reload, and the same success/error
response — except for the input handling the claim itself excepts: the
example reads the fixed server-local file directly and ignores any
request body (here: the upload write cannot fail and is not performed),
so the final filesystems agree on every directory and on every file other
than the segment handler's uploaded input copy, and the responses (all
fields) and the task passed to the pipeline coincide. -/
theorem claim_C6_example_refines_segment (fs : FS) (sid : String) (env : Env)
    (hw : env.writeFail = none) (hm : examplePath ∈ fs.files) :
    (segment_example fs sid env).resp = (segment_image fs sid "MR" env).resp
    ∧ (segment_example fs sid env).task = (segment_image fs sid "MR" env).task
    ∧ (segment_example fs sid env).fs.dirs = (segment_image fs sid "MR" env).fs.dirs
    ∧ ∀ p, p ≠ inputPathOf sid →
        (p ∈ (segment_example fs sid env).fs.files
          ↔ p ∈ (segment_image fs sid "MR" env).fs.files) := by
  cases hmk : env.mkdirFail with
  | some m =>
    rw [segment_example_eq_of_mkdir_fail fs sid env m hmk,
      segment_image_eq_of_mkdir_fail fs sid "MR" env m hmk]
    exact ⟨rfl, rfl, rfl, fun p hp => Iff.rfl⟩
  | none =>
    rw [segment_example_eq_of_pre_ok fs sid env hmk,
      segment_image_eq_of_pre_ok fs sid "MR" env hmk hw]
    have hd0 : (fs.mkdir (sessionDirOf sid)).dirs
        = ((fs.mkdir (sessionDirOf sid)).writeFile (inputPathOf sid)).dirs :=
      (dirs_writeFile _ _).symm
    have hf0 : ∀ p, p ≠ inputPathOf sid →
        (p ∈ (fs.mkdir (sessionDirOf sid)).files
          ↔ p ∈ ((fs.mkdir (sessionDirOf sid)).writeFile (inputPathOf sid)).files) := by
      intro p hp
      rw [mem_files_writeFile]
      constructor
      · exact fun h => Or.inr h
      · rintro (rfl | h)
        · exact absurd rfl hp
        · exact h
    have hex0 : examplePath ∈ (fs.mkdir (sessionDirOf sid)).files := by
      rw [files_mkdir]
      exact hm
    have hip0 : inputPathOf sid ∈ ((fs.mkdir (sessionDirOf sid)).writeFile (inputPathOf sid)).files :=
      (mem_files_writeFile _ _ _).mpr (Or.inl rfl)
    have sim := exTry_segTry_sim (fs.mkdir (sessionDirOf sid))
      ((fs.mkdir (sessionDirOf sid)).writeFile (inputPathOf sid)) sid env hd0 hf0 hex0 hip0
    cases houta : (exTry (fs.mkdir (sessionDirOf sid)) sid env).out with
    | ok b =>
      have houtb : (segTry ((fs.mkdir (sessionDirOf sid)).writeFile (inputPathOf sid)) sid "MR" env).out
          = .ok b := by
        rw [← sim.1, houta]
      simp only [houta, houtb]
      exact ⟨trivial, sim.2.1, sim.2.2.1, sim.2.2.2⟩
    | exn e =>
      have houtb : (segTry ((fs.mkdir (sessionDirOf sid)).writeFile (inputPathOf sid)) sid "MR" env).out
          = .exn e := by
        rw [← sim.1, houta]
      have hexa : (exTry (fs.mkdir (sessionDirOf sid)) sid env).fs.existsPath (sessionDirOf sid) = true :=
        (existsPath_iff _ _).mpr (Or.inl (exTry_sessionDir_mem fs sid env))
      have hexb : (segTry ((fs.mkdir (sessionDirOf sid)).writeFile (inputPathOf sid)) sid "MR" env).fs.existsPath
          (sessionDirOf sid) = true :=
        (existsPath_iff _ _).mpr (Or.inl (segTry_sessionDir_mem fs sid "MR" env))
      simp only [houta, houtb, hexa, hexb, if_true]
      refine ⟨trivial, sim.2.1, ?_, ?_⟩
      · unfold FS.rmtree
        rw [sim.2.2.1]
      · intro p hp
        rw [mem_files_rmtree, mem_files_rmtree]
        exact and_congr (sim.2.2.2 p hp) Iff.rfl

/-- C6 witness: a concrete filesystem holding the example file, the
all-successful oracle, and the equivalence of the two handlers there. -/
theorem claim_C6_witness :
    envOk.writeFail = none ∧ examplePath ∈ (FS.mk [] [examplePath]).files
    ∧ ((segment_example (FS.mk [] [examplePath]) "sid9" envOk).resp
          = (segment_image (FS.mk [] [examplePath]) "sid9" "MR" envOk).resp
      ∧ (segment_example (FS.mk [] [examplePath]) "sid9" envOk).task
          = (segment_image (FS.mk [] [examplePath]) "sid9" "MR" envOk).task
      ∧ (segment_example (FS.mk [] [examplePath]) "sid9" envOk).fs.dirs
          = (segment_image (FS.mk [] [examplePath]) "sid9" "MR" envOk).fs.dirs
      ∧ ∀ p, p ≠ inputPathOf "sid9" →
          (p ∈ (segment_example (FS.mk [] [examplePath]) "sid9" envOk).fs.files
            ↔ p ∈ (segment_image (FS.mk [] [examplePath]) "sid9" "MR" envOk).fs.files)) :=
  ⟨rfl, by decide,
   claim_C6_example_refines_segment (FS.mk [] [examplePath]) "sid9" envOk rfl (by decide)⟩

end TotalSegAPI
